import Mathlib

/-!
Verification development for `tools/cross_compiler/common.py`.

The Python module is shallowly embedded below.  Paths are modelled as the
strings the code manipulates; the relevant pieces of `os.path` (posixpath
`join`, `normpath`, `abspath`, `commonprefix`) are embedded as executable
functions on lists of characters, matching the CPython implementations for
the inputs the claims involve.  Subprocess execution is modelled by passing
in oracles (an exit-code function, an environment-to-result function), and a
logger is modelled as a function from the message to an `Except` value, so
that a logger that raises is representable.
-/

/-! ## Generic list-of-characters helpers -/

/-- Boolean test that `pat` is an initial segment of `l`. -/
def listStartsWith : List Char → List Char → Bool
  | [], _ => true
  | _ :: _, [] => false
  | a :: as, b :: bs => a == b && listStartsWith as bs

/-- Boolean test that `pat` is a final segment of `l`. -/
def listEndsWith (pat l : List Char) : Bool :=
  listStartsWith pat.reverse l.reverse

/-- Boolean substring test: Python's `needle in hay` on strings. -/
def listHasSub (needle : List Char) : List Char → Bool
  | [] => listStartsWith needle []
  | c :: rest => listStartsWith needle (c :: rest) || listHasSub needle rest

/-- Split a character list on the separator char, like Python `str.split` with
an explicit single-character separator: `splitOnSlash "" = [""]`. -/
def splitOnSlash : List Char → List (List Char)
  | [] => [[]]
  | c :: rest =>
    match splitOnSlash rest with
    | [] => [[]]
    | g :: gs => if c = '/' then [] :: g :: gs else (c :: g) :: gs

/-- Join components with a single slash, like `sep.join(comps)`. -/
def joinSlash : List (List Char) → List Char
  | [] => []
  | [c] => c
  | c :: c2 :: cs => c ++ '/' :: joinSlash (c2 :: cs)

/-! ## Embedding of the `os.path` (posixpath) functions the code calls -/

/-- Loop of CPython `posixpath.normpath`: processes components left to right;
the accumulator holds the already-accepted components in reverse order. -/
def normLoop (initAbs : Bool) : List (List Char) → List (List Char) → List (List Char)
  | acc, [] => acc.reverse
  | acc, comp :: rest =>
    if comp = [] ∨ comp = ['.'] then normLoop initAbs acc rest
    else if comp ≠ ['.', '.'] ∨ (initAbs = false ∧ acc = []) ∨ acc.head? = some ['.', '.'] then
      normLoop initAbs (comp :: acc) rest
    else
      normLoop initAbs acc.tail rest

/-- CPython `posixpath.normpath` on character lists. -/
def normpathChars (p : List Char) : List Char :=
  let slashes : Nat :=
    if listStartsWith ['/', '/'] p = true ∧ listStartsWith ['/', '/', '/'] p = false then 2
    else if listStartsWith ['/'] p = true then 1 else 0
  let comps := splitOnSlash p
  let nc := normLoop (0 < slashes) [] comps
  let joined := List.replicate slashes '/' ++ joinSlash nc
  if joined = [] then ['.'] else joined

/-- CPython `posixpath.join` restricted to two arguments. -/
def osPathJoinChars (a b : List Char) : List Char :=
  if listStartsWith ['/'] b then b
  else if a = [] ∨ listEndsWith ['/'] a then a ++ b
  else a ++ '/' :: b

/-- CPython `posixpath.abspath`, with the current working directory passed
explicitly: makes the path absolute against `cwd`, then normalises it. -/
def abspathChars (cwd p : List Char) : List Char :=
  normpathChars (if listStartsWith ['/'] p then p else osPathJoinChars cwd p)

/-- Character-wise longest common initial segment of two strings: what
`os.path.commonprefix` computes on a two-element list. -/
def commonPfxChars : List Char → List Char → List Char
  | a :: as, b :: bs => if a = b then a :: commonPfxChars as bs else []
  | _, _ => []

/-- String wrapper for `posixpath.join`. -/
def osPathJoin (a b : String) : String :=
  { data := osPathJoinChars a.data b.data }

/-- String wrapper for the join performed by `tar_path.parent / Path(member.name)`
in line 78 of the source (pathlib join of the archive directory and a member
name). -/
def pathlibJoin (a b : String) : String :=
  { data := if listStartsWith ['/'] b.data then b.data
            else if a.data = [] ∨ listEndsWith ['/'] a.data then a.data ++ b.data
            else a.data ++ '/' :: b.data }

/-! ## `is_within_directory` and the installer classification -/

/-- Embeds `is_within_directory` (common.py lines 84-91): resolve both paths
with `os.path.abspath` and compare the `os.path.commonprefix` of the pair with
the resolved directory.  The working directory used by `abspath` is passed
explicitly as `cwd`. -/
def is_within_directory (cwd directory target : String) : Bool :=
  let absDirectory := abspathChars cwd.data directory.data
  let absTarget := abspathChars cwd.data target.data
  commonPfxChars absDirectory absTarget = absDirectory

/-- The three characters of the marker the code looks for in member names. -/
def shChars : List Char := ['.', 's', 'h']

/-- Embeds the membership test of common.py line 79: a member is an installer
candidate exactly when the string `.sh` occurs somewhere in its name. -/
def memberIsInstaller (name : String) : Bool :=
  listHasSub shChars name.data

/-! ## Environment model

The process environment is an association list with distinct keys (a Python
`dict` of strings).  `envGet` is dictionary lookup, `envSet` is item
assignment `d[k] = v`. -/

/-- Dictionary lookup `d.get(k)`. -/
def envGet : List (String × String) → String → Option String
  | [], _ => none
  | (k0, v0) :: rest, k => if k0 = k then some v0 else envGet rest k

/-- Dictionary assignment `d[k] = v`. -/
def envSet : List (String × String) → String → String → List (String × String)
  | [], k, v => [(k, v)]
  | (k0, v0) :: rest, k, v =>
    if k0 = k then (k0, v) :: rest else (k0, v0) :: envSet rest k v

/-- Embeds the environment built by `run_subprocess` (common.py lines 33-35):
copy `os.environ`, then assign every entry of `update_env` into the copy.  The
resulting list is the `env=` mapping handed to `subprocess.run`. -/
def run_subprocess_env (osEnv upd : List (String × String)) : List (String × String) :=
  upd.foldl (fun e kv => envSet e kv.1 kv.2) osEnv

/-! ## Subprocess results and the logging model -/

/-- A `subprocess.CompletedProcess` after the stdout/stderr bytes have been
decoded to text: command tokens, exit code and the two captured streams. -/
structure CompletedProc where
  args : List String
  returncode : Int
  stdout : String
  stderr : String
deriving DecidableEq

/-- Python `" ".join(tokens)`. -/
def joinSpace : List String → String
  | [] => ""
  | [s] => s
  | s :: s2 :: rest => s ++ " " ++ joinSpace (s2 :: rest)

/-- A logger call site: the logger receives the message and either returns or
raises.  The severity levels (`debug`/`warning`/`error`) all share one
function here; the claims under study only depend on whether a call raises. -/
def LoggerFun : Type := String → Except Unit Unit

/-- Log message built by `check_subprocess_output` (common.py lines 52-57).
The source appends with `log_message += '\x7b\x7d...'.format(log_message, ...)`,
which duplicates the message built so far; that duplication is reproduced
faithfully. -/
def buildLogMessageCheck (cmd : String) (returncode : Int) (out err : String) : String :=
  let m0 := "CMD <" ++ cmd ++ "> RETURNED <" ++ toString returncode ++ ">.\n"
  let m1 := if out ≠ "" then m0 ++ (m0 ++ "STDOUT was:\n" ++ out ++ "\n") else m0
  if err ≠ "" then m1 ++ (m1 ++ "STDERR was:\n" ++ err ++ "\n") else m1

/-- The log message `check_subprocess_output` builds for a given result. -/
def checkLogMessage (p : CompletedProc) : String :=
  buildLogMessageCheck (joinSpace p.args) p.returncode p.stdout p.stderr

/-- The message handed to the logger by the first (guarded) logging call of
`check_subprocess_output`: the debug message on exit code 0, the wrapped
error message otherwise. -/
def checkPrimaryMsg (p : CompletedProc) : String :=
  if p.returncode = 0 then checkLogMessage p
  else "An error occurred when running a sub-process: " ++ checkLogMessage p

/-- First fallback line logged when the guarded logging call raises
(common.py lines 62 and 68). -/
def checkFallback1 : String := "An error occurred when trying to logging the output date"

/-- Stands for `str(msg.encode(utf-8))` in the second fallback line; the byte
literal formatting is abstracted as the message itself, since no claim
depends on its exact rendering. -/
def encodedForLog (msg : String) : String := msg

/-- Second fallback line (common.py lines 63 and 69). -/
def checkFallback2 (p : CompletedProc) : String :=
  "Encoded log message:\n" ++ encodedForLog (checkLogMessage p)

/-- Errors that can escape `check_subprocess_output`: either a logging error
raised by one of the unguarded fallback calls, or the
`subprocess.CalledProcessError` raised on a non-zero exit code, carrying the
joined command, the exit code and both captured streams. -/
inductive CheckErr where
  | propagatedLogErr : CheckErr
  | calledProcessError (returncode : Int) (cmd : String) (out err : String) : CheckErr
deriving DecidableEq

/-- Embeds `check_subprocess_output` (common.py lines 46-70).  On exit code 0
the debug call is guarded by `try/except`; when it raises, the two fallback
lines are logged (unguarded) and execution continues.  On a non-zero exit the
error call is guarded the same way and a `CalledProcessError` is raised
afterwards in every case. -/
def check_subprocess_output (log : LoggerFun) (p : CompletedProc) : Except CheckErr Unit :=
  if p.returncode = 0 then
    match log (checkPrimaryMsg p) with
    | Except.ok _ => Except.ok ()
    | Except.error _ =>
      match log checkFallback1 with
      | Except.error _ => Except.error CheckErr.propagatedLogErr
      | Except.ok _ =>
        match log (checkFallback2 p) with
        | Except.error _ => Except.error CheckErr.propagatedLogErr
        | Except.ok _ => Except.ok ()
  else
    match log (checkPrimaryMsg p) with
    | Except.ok _ =>
      Except.error (CheckErr.calledProcessError p.returncode (joinSpace p.args) p.stdout p.stderr)
    | Except.error _ =>
      match log checkFallback1 with
      | Except.error _ => Except.error CheckErr.propagatedLogErr
      | Except.ok _ =>
        match log (checkFallback2 p) with
        | Except.error _ => Except.error CheckErr.propagatedLogErr
        | Except.ok _ =>
          Except.error (CheckErr.calledProcessError p.returncode (joinSpace p.args) p.stdout p.stderr)

/-! ## ShellRunner -/

/-- Errors that can escape `ShellRunner.run`: an uncaught logger exception
from `_log_subprocess`, or the `CalledProcessError` raised by
`p.check_returncode()`, carrying exit code, command tokens and both decoded
streams. -/
inductive RunErr where
  | logFailure : RunErr
  | cmdFailed (returncode : Int) (args : List String) (out err : String) : RunErr
deriving DecidableEq

/-- Log message built by `ShellRunner._log_subprocess` (common.py lines
160-164); unlike `check_subprocess_output` it extends the message by plain
assignment, so there is no duplication. -/
def buildLogMessageShell (p : CompletedProc) : String :=
  let cmd := joinSpace p.args
  let m0 := "CMD <" ++ cmd ++ "> RETURNED <" ++ toString p.returncode ++ ">.\n"
  let m1 := if p.stdout ≠ "" then m0 ++ "STDOUT was:\n" ++ p.stdout ++ "\n" else m0
  if p.stderr ≠ "" then m1 ++ "STDERR was:\n" ++ p.stderr ++ "\n" else m1

/-- Embeds `ShellRunner._log_subprocess` (common.py lines 154-169): one
logger call, `debug` on exit code 0 and `error` otherwise, with no exception
handling around it. -/
def ShellRunner.logSubprocess (log : LoggerFun) (p : CompletedProc) : Except Unit Unit :=
  if p.returncode = 0 then log (buildLogMessageShell p)
  else log ("An error occurred when running a sub-process: " ++ buildLogMessageShell p)

/-- Embeds the `env=env` argument `ShellRunner.run` passes to
`subprocess.run` (common.py lines 133-135): `None` lets the child inherit the
parent environment, while a mapping becomes the child environment exactly as
given (it is not merged with `os.environ`). -/
def ShellRunner.childEnv (osEnv : List (String × String))
    (env : Option (List (String × String))) : List (String × String) :=
  match env with
  | none => osEnv
  | some e => e

/-- Embeds `ShellRunner.run` (common.py lines 117-144).  The child process is
an oracle `spawn` from the environment it is given to its completed result
(stdout/stderr already decoded).  After spawning, the result is logged via
`_log_subprocess`; an exception there propagates.  Then, unless
`ignore_errors` is set, `p.check_returncode()` raises a `CalledProcessError`
on a non-zero exit code; otherwise the completed process is returned. -/
def ShellRunner.run (log : LoggerFun) (osEnv : List (String × String))
    (env : Option (List (String × String))) (ignore_errors : Bool)
    (spawn : List (String × String) → CompletedProc) : Except RunErr CompletedProc :=
  let p := spawn (ShellRunner.childEnv osEnv env)
  match ShellRunner.logSubprocess log p with
  | Except.error _ => Except.error RunErr.logFailure
  | Except.ok _ =>
    if ignore_errors = false then
      if p.returncode ≠ 0 then
        Except.error (RunErr.cmdFailed p.returncode p.args p.stdout p.stderr)
      else Except.ok p
    else Except.ok p

/-! ## `extract_and_install_toolchain` -/

/-- Failures of `extract_and_install_toolchain`: the `FileNotFoundError`
raised when no member name contains `.sh` (the spec calls it
`InstallerNotFoundError`), the exception raised by `safe_extract` (the spec's
`PathTraversalError`), and the `CalledProcessError` propagated by
`run_subprocess` when an installer exits non-zero. -/
inductive InstallErr where
  | installerNotFound : InstallErr
  | pathTraversal : InstallErr
  | commandFailed (cmd : String) (returncode : Int) : InstallErr
deriving DecidableEq

/-- Observable outcome of one `extract_and_install_toolchain` call:
the member names written to disk by `tar.extractall`, the commands handed to
`run_subprocess` in order, and the error the call raised, if any. -/
structure InstallRun where
  extracted : List String
  commands : List String
  err : Option InstallErr
deriving DecidableEq

/-- The candidate installer paths of common.py lines 78-79: members whose
name contains `.sh`, each joined to the archive directory with pathlib. -/
def toolchainInstallers (tarDir : String) (members : List String) : List String :=
  (members.filter memberIsInstaller).map (fun m => pathlibJoin tarDir m)

/-- The command line `run_subprocess` receives for one installer
(common.py line 108). -/
def mkInstallCmd (installDir : String) (installer : String) : String :=
  installer ++ " -d " ++ installDir ++ " -y"

/-- Runs the installer commands in order through `run_subprocess` with
`check_output=True`: each command is executed, and the first non-zero exit
code raises a `CalledProcessError`, aborting the rest.  Returns the commands
actually executed and the error, if any. -/
def runInstallers (exitCode : String → Int) : List String → List String × Option InstallErr
  | [] => ([], none)
  | c :: cs =>
    if exitCode c ≠ 0 then ([c], some (InstallErr.commandFailed c (exitCode c)))
    else
      let r := runInstallers exitCode cs
      (c :: r.1, r.2)

/-- Embeds `extract_and_install_toolchain` (common.py lines 73-108) over an
archive given by its member names.  In source order: the installer candidates
are computed from the member list and `FileNotFoundError` is raised if there
are none; then `safe_extract` checks every member with `is_within_directory`
against the archive directory and raises before writing anything if a member
fails the check; then `tar.extractall` writes all members; finally each
installer is invoked via `run_subprocess`, whose exit codes come from the
`exitCode` oracle. -/
def extract_and_install_toolchain (cwd tarDir installDir : String)
    (members : List String) (exitCode : String → Int) : InstallRun :=
  let installers := toolchainInstallers tarDir members
  if installers = [] then
    { extracted := [], commands := [], err := some InstallErr.installerNotFound }
  else if members.any (fun m => !is_within_directory cwd tarDir (osPathJoin tarDir m)) then
    { extracted := [], commands := [], err := some InstallErr.pathTraversal }
  else
    let r := runInstallers exitCode (installers.map (mkInstallCmd installDir))
    { extracted := members, commands := r.1, err := r.2 }

/-! ## Architecture enum and the apt package helper -/

/-- Embeds the `Arch` enum (common.py lines 10-16). -/
inductive Arch where
  | AARCH64 : Arch
  | ARMV7L : Arch
  | ARMV7LHF : Arch
deriving DecidableEq

/-- The enum value string, also what `str(arch)` returns. -/
def Arch.value : Arch → String
  | Arch.AARCH64 => "aarch64"
  | Arch.ARMV7L => "armv7l"
  | Arch.ARMV7LHF => "armv7lhf"

/-- Embeds the package-list computation of `install_compilers_apt_packages`
(common.py lines 175-180): two explicit branches and a default branch that
formats the package names from the enum value. -/
def install_compilers_apt_packages (arch : Arch) : List String :=
  if arch = Arch.ARMV7L then ["g++-arm-linux-gnueabi", "gcc-arm-linux-gnueabi"]
  else if arch = Arch.ARMV7LHF then ["g++-arm-linux-gnueabihf", "gcc-arm-linux-gnueabihf"]
  else ["g++-" ++ arch.value ++ "-linux-gnu", "gcc-" ++ arch.value ++ "-linux-gnu"]

/-- The single shell command issued by `install_compilers_apt_packages`
(common.py line 182). -/
def install_compilers_apt_command (arch : Arch) : String :=
  "sudo apt-get install -y " ++ joinSpace (install_compilers_apt_packages arch)

/-- Written from the words of the spec, section 4.3: the fixed
architecture-to-package table, to be compared with the packages the code
computes. -/
def specPackageTable : Arch → List String
  | Arch.ARMV7L => ["g++-arm-linux-gnueabi", "gcc-arm-linux-gnueabi"]
  | Arch.ARMV7LHF => ["g++-arm-linux-gnueabihf", "gcc-arm-linux-gnueabihf"]
  | Arch.AARCH64 => ["g++-aarch64-linux-gnu", "gcc-aarch64-linux-gnu"]

/-! ## `working_directory` -/

/-- Embeds the `working_directory` context manager (common.py lines 19-26)
as a function on an explicit working-directory state.  The wrapped operation
`body` receives the directory it was entered with and reports the `os.chdir`
calls it performs itself together with its outcome (normal return or raised
exception).  The returned list is the full sequence of `os.chdir` targets:
the entry `chdir(target_directory)`, the body's own calls, and the
`finally:` restore `chdir(current_directory)` that runs on both outcomes. -/
def working_directory (cwd target : String)
    (body : String → List String × Except Unit Unit) : List String × Except Unit Unit :=
  match body target with
  | (chdirs, res) => (target :: chdirs ++ [cwd], res)

/-- The working directory after a sequence of `os.chdir` calls: the last
target, or the initial directory when no call was made. -/
def finalDir (init : String) (chdirs : List String) : String :=
  chdirs.foldl (fun _ d => d) init

/-- Written from the words of the claim C1 and the spec glossary: a resolved
absolute path is outside the extraction root when it is neither the root
itself nor strictly below it. -/
def specResolvesOutsideRoot (root p : List Char) : Bool :=
  !(p == root || listStartsWith (root ++ ['/']) p)

/-- Sanity check kept as a named lemma: a member resolving outside the root
without sharing the root as a string prefix is rejected and nothing is
extracted, matching the guarded path of the code (the `../../etc/passwd` case
of the spec). -/
theorem safe_extract_rejects_plain_traversal :
    is_within_directory "/" "/tmp/tc" (osPathJoin "/tmp/tc" "../../etc/passwd") = false
    ∧ extract_and_install_toolchain "/" "/tmp/tc" "/opt" ["../../etc/passwd", "setup.sh"]
        (fun _ => 0)
      = { extracted := [], commands := [], err := some InstallErr.pathTraversal } := by
  decide

/-! ## Helper lemmas -/

theorem listStartsWith_iff (pat l : List Char) :
    listStartsWith pat l = true ↔ ∃ r, l = pat ++ r := by
  induction pat generalizing l with
  | nil =>
    simp [listStartsWith]
  | cons a as ih =>
    cases l with
    | nil =>
      simp [listStartsWith]
    | cons b bs =>
      simp only [listStartsWith, Bool.and_eq_true, beq_iff_eq, ih, List.cons_append,
        List.cons.injEq]
      constructor
      · rintro ⟨h1, r, h2⟩
        exact ⟨r, h1.symm, h2⟩
      · rintro ⟨r, h1, h2⟩
        exact ⟨h1.symm, r, h2⟩

theorem listHasSub_iff (needle hay : List Char) :
    listHasSub needle hay = true ↔ ∃ l r, hay = l ++ needle ++ r := by
  induction hay with
  | nil =>
    simp only [listHasSub, listStartsWith_iff]
    constructor
    · rintro ⟨r, h⟩
      exact ⟨[], r, by simpa using h⟩
    · rintro ⟨l, r, h⟩
      have h2 : l ++ needle ++ r = [] := h.symm
      have hn : needle = [] := (List.append_eq_nil.mp (List.append_eq_nil.mp h2).1).2
      exact ⟨[], by simp [hn]⟩
  | cons c cs ih =>
    simp only [listHasSub, Bool.or_eq_true, listStartsWith_iff, ih]
    constructor
    · rintro (⟨r, hr⟩ | ⟨l, r, hr⟩)
      · exact ⟨[], r, by simpa using hr⟩
      · exact ⟨c :: l, r, by simp [hr]⟩
    · rintro ⟨l, r, hr⟩
      cases l with
      | nil =>
        left
        exact ⟨r, by simpa using hr⟩
      | cons x xs =>
        right
        simp only [List.cons_append, List.cons.injEq] at hr
        exact ⟨xs, r, hr.2⟩

theorem envGet_none_of_not_mem (e : List (String × String)) (k : String)
    (h : k ∉ e.map Prod.fst) : envGet e k = none := by
  induction e with
  | nil => rfl
  | cons kv rest ih =>
    obtain ⟨k0, v0⟩ := kv
    simp only [List.map_cons, List.mem_cons] at h
    push_neg at h
    have hne : ¬k0 = k := fun hx => h.1 hx.symm
    simp [envGet, hne, ih h.2]

theorem envGet_envSet (e : List (String × String)) (k v k2 : String) :
    envGet (envSet e k v) k2 = if k = k2 then some v else envGet e k2 := by
  induction e with
  | nil =>
    simp [envSet, envGet]
  | cons kv rest ih =>
    obtain ⟨k0, v0⟩ := kv
    by_cases h0 : k0 = k
    · subst h0
      by_cases h2 : k0 = k2
      · subst h2
        simp [envSet, envGet]
      · simp [envSet, envGet, h2]
    · by_cases h2 : k0 = k2
      · subst h2
        have hk : ¬k = k0 := fun hx => h0 hx.symm
        simp [envSet, envGet, h0, hk]
      · simp [envSet, envGet, h0, h2, ih]

theorem envGet_run_subprocess_env (upd : List (String × String))
    (osEnv : List (String × String)) (k : String)
    (h : (upd.map Prod.fst).Nodup) :
    envGet (run_subprocess_env osEnv upd) k
      = match envGet upd k with
        | some v => some v
        | none => envGet osEnv k := by
  induction upd generalizing osEnv with
  | nil => rfl
  | cons kv rest ih =>
    obtain ⟨k0, v0⟩ := kv
    simp only [List.map_cons, List.nodup_cons] at h
    have hstep : run_subprocess_env osEnv ((k0, v0) :: rest)
        = run_subprocess_env (envSet osEnv k0 v0) rest := rfl
    rw [hstep, ih _ h.2]
    by_cases hk : k0 = k
    · have hrest : envGet rest k = none :=
        envGet_none_of_not_mem rest k (fun hm => h.1 (hk.symm ▸ hm))
      simp [envGet, hrest, hk, envGet_envSet]
    · simp only [envGet, hk, if_false]
      cases hrk : envGet rest k with
      | some v => simp
      | none => simp [envGet_envSet, hk]

theorem runInstallers_all_ok (exitCode : String → Int) (l : List String)
    (h : ∀ c ∈ l, exitCode c = 0) :
    runInstallers exitCode l = (l, none) := by
  induction l with
  | nil => rfl
  | cons c cs ih =>
    have hc : exitCode c = 0 := h c (List.mem_cons_self c cs)
    have ihr := ih (fun x hx => h x (List.mem_cons_of_mem c hx))
    simp [runInstallers, hc, ihr]

theorem runInstallers_abort (exitCode : String → Int) (pre : List String)
    (c : String) (post : List String)
    (hpre : ∀ x ∈ pre, exitCode x = 0) (hc : exitCode c ≠ 0) :
    runInstallers exitCode (pre ++ c :: post)
      = (pre ++ [c], some (InstallErr.commandFailed c (exitCode c))) := by
  induction pre with
  | nil => simp [runInstallers, hc]
  | cons a as ih =>
    have ha : exitCode a = 0 := hpre a (List.mem_cons_self a as)
    have ihr := ih (fun x hx => hpre x (List.mem_cons_of_mem a hx))
    simp [runInstallers, ha, ihr]

theorem filter_installers_nil (members : List String)
    (h : ∀ m ∈ members, memberIsInstaller m = false) :
    members.filter memberIsInstaller = [] := by
  induction members with
  | nil => rfl
  | cons m ms ih =>
    have hm := h m (List.mem_cons_self m ms)
    simp [List.filter, hm, ih (fun x hx => h x (List.mem_cons_of_mem m hx))]

/-! ## Claims -/

/-- C1: the claim states that any member whose name resolves outside the
extraction root triggers the path-traversal error and nothing is extracted.
The code checks `commonprefix([abs_root, abs_target]) == abs_root`, a plain
string comparison, so a member resolving to a sibling of the root whose name
extends the root's name passes the guard: with extraction root `/tmp/tc`, the
member `../tcx/evil` resolves to `/tmp/tcx/evil`, which is outside the root
yet accepted by `is_within_directory`, and the archive is fully extracted
with no error.  The guard exists precisely to stop traversal (it raises
`Attempted Path Traversal in Tar File`), so this is a bug in the code, not
in the claim. -/
theorem c1_traversal_guard_bypassed :
    specResolvesOutsideRoot "/tmp/tc".data
        (abspathChars "/".data (osPathJoin "/tmp/tc" "../tcx/evil").data) = true
    ∧ is_within_directory "/" "/tmp/tc" (osPathJoin "/tmp/tc" "../tcx/evil") = true
    ∧ (extract_and_install_toolchain "/" "/tmp/tc" "/opt" ["../tcx/evil", "setup.sh"]
        (fun _ => 0)).err = none
    ∧ (extract_and_install_toolchain "/" "/tmp/tc" "/opt" ["../tcx/evil", "setup.sh"]
        (fun _ => 0)).extracted = ["../tcx/evil", "setup.sh"] := by
  decide

/-- C2 counterexample: the claim says the child environment of
`ShellRunner.run` is the current process environment with the overrides
applied on top.  In the code, `env` is handed to `subprocess.run` unmerged,
so with a current environment holding `PATH` and an override mapping holding
only `FOO`, the child environment lacks `PATH` entirely. -/
theorem c2_env_not_merged_counterexample :
    envGet (ShellRunner.childEnv [("PATH", "/usr/bin")] (some [("FOO", "1")])) "PATH" = none
    ∧ envGet [("PATH", "/usr/bin")] "PATH" = some "/usr/bin" := by
  decide

/-- C2 amended: the merge-on-top semantics holds for `run_subprocess`'s
`update_env` (overridden keys take the override value, all other keys keep
their current value), while `ShellRunner.run` passes `env` through to the
child unmerged, so the child environment is exactly the given mapping. -/
theorem c2_env_semantics_amended :
    (∀ (osEnv upd : List (String × String)) (k : String),
        (upd.map Prod.fst).Nodup →
        (∀ v, envGet upd k = some v → envGet (run_subprocess_env osEnv upd) k = some v)
        ∧ (envGet upd k = none → envGet (run_subprocess_env osEnv upd) k = envGet osEnv k))
    ∧ ∀ (osEnv e : List (String × String)), ShellRunner.childEnv osEnv (some e) = e := by
  constructor
  · intro osEnv upd k h
    constructor
    · intro v hv
      rw [envGet_run_subprocess_env upd osEnv k h, hv]
    · intro hv
      rw [envGet_run_subprocess_env upd osEnv k h, hv]
  · intro osEnv e
    rfl

/-- Witness for the amended C2 statement at a concrete environment. -/
theorem c2_env_semantics_witness :
    ([("FOO", "1")].map Prod.fst).Nodup
    ∧ envGet (run_subprocess_env [("PATH", "/usr/bin")] [("FOO", "1")]) "FOO" = some "1"
    ∧ envGet (run_subprocess_env [("PATH", "/usr/bin")] [("FOO", "1")]) "PATH"
        = some "/usr/bin" :=
  ⟨by decide,
   (c2_env_semantics_amended.1 [("PATH", "/usr/bin")] [("FOO", "1")] "FOO" (by decide)).1
     "1" (by decide),
   ((c2_env_semantics_amended.1 [("PATH", "/usr/bin")] [("FOO", "1")] "PATH" (by decide)).2
     (by decide)).trans (by decide)⟩

/-- C3 counterexample: the claim says a logging failure never propagates out
of the runner.  `ShellRunner._log_subprocess` has no exception handling, so
with a logger that raises, `ShellRunner.run` surfaces the logging error even
though the command exited 0; with a working logger the same call returns
normally. -/
theorem c3_log_failure_propagates_counterexample :
    ShellRunner.run (fun _ => Except.error ()) [] none false
        (fun _ => { args := ["true"], returncode := 0, stdout := "", stderr := "" })
      = Except.error RunErr.logFailure
    ∧ ShellRunner.run (fun _ => Except.ok ()) [] none false
        (fun _ => { args := ["true"], returncode := 0, stdout := "", stderr := "" })
      = Except.ok { args := ["true"], returncode := 0, stdout := "", stderr := "" } := by
  constructor <;> rfl

/-- C3 amended: only `check_subprocess_output` contains the fallback
handling.  There, if the guarded logging call raises and the two fallback
lines log fine, the call continues to the outcome its exit code alone
dictates.  In `ShellRunner`, a raising `_log_subprocess` propagates out of
`run`. -/
theorem c3_logging_amended :
    (∀ (log : LoggerFun) (p : CompletedProc),
        log (checkPrimaryMsg p) = Except.error () →
        log checkFallback1 = Except.ok () →
        log (checkFallback2 p) = Except.ok () →
        check_subprocess_output log p
          = if p.returncode = 0 then Except.ok ()
            else Except.error
              (CheckErr.calledProcessError p.returncode (joinSpace p.args) p.stdout p.stderr))
    ∧ ∀ (log : LoggerFun) (osEnv : List (String × String))
        (env : Option (List (String × String))) (ig : Bool)
        (spawn : List (String × String) → CompletedProc),
        ShellRunner.logSubprocess log (spawn (ShellRunner.childEnv osEnv env))
          = Except.error () →
        ShellRunner.run log osEnv env ig spawn = Except.error RunErr.logFailure := by
  constructor
  · intro log p h1 h2 h3
    by_cases hc : p.returncode = 0
    · simp [check_subprocess_output, hc, h1, h2, h3]
    · simp [check_subprocess_output, hc, h1, h2, h3]
  · intro log osEnv env ig spawn h
    simp [ShellRunner.run, h]

/-- Witness for the amended C3 statement: a concrete logger that raises on
the primary message while the fallback lines succeed leaves the zero-exit
outcome intact, and a concrete always-raising logger escapes
`ShellRunner.run`. -/
theorem c3_logging_amended_witness :
    check_subprocess_output
        (fun s => if listStartsWith ['C', 'M', 'D'] s.data then Except.error () else Except.ok ())
        { args := ["x"], returncode := 0, stdout := "", stderr := "" }
      = Except.ok ()
    ∧ ShellRunner.run (fun _ => Except.error ()) [] none true
        (fun _ => { args := ["x"], returncode := 1, stdout := "", stderr := "" })
      = Except.error RunErr.logFailure :=
  ⟨(c3_logging_amended.1
      (fun s => if listStartsWith ['C', 'M', 'D'] s.data then Except.error () else Except.ok ())
      { args := ["x"], returncode := 0, stdout := "", stderr := "" }
      rfl rfl rfl).trans rfl,
   c3_logging_amended.2 (fun _ => Except.error ()) [] none true
      (fun _ => { args := ["x"], returncode := 1, stdout := "", stderr := "" }) rfl⟩

/-- C4: provided the logger does not raise, `ShellRunner.run` raises the
`CalledProcessError` carrying exit code, command, stdout and stderr exactly
when the exit code is non-zero and `ignore_errors` is false, and in every
other combination returns the completed process, which carries its exit
code. -/
theorem c4_exit_code_raising (log : LoggerFun) (osEnv : List (String × String))
    (env : Option (List (String × String))) (ig : Bool)
    (spawn : List (String × String) → CompletedProc)
    (hlog : ∀ s, log s = Except.ok ()) :
    ((spawn (ShellRunner.childEnv osEnv env)).returncode ≠ 0 ∧ ig = false →
      ShellRunner.run log osEnv env ig spawn
        = Except.error (RunErr.cmdFailed (spawn (ShellRunner.childEnv osEnv env)).returncode
            (spawn (ShellRunner.childEnv osEnv env)).args
            (spawn (ShellRunner.childEnv osEnv env)).stdout
            (spawn (ShellRunner.childEnv osEnv env)).stderr))
    ∧ ((spawn (ShellRunner.childEnv osEnv env)).returncode = 0 ∨ ig = true →
      ShellRunner.run log osEnv env ig spawn
        = Except.ok (spawn (ShellRunner.childEnv osEnv env))) := by
  have hlogp : ShellRunner.logSubprocess log (spawn (ShellRunner.childEnv osEnv env))
      = Except.ok () := by
    unfold ShellRunner.logSubprocess
    split <;> exact hlog _
  constructor
  · rintro ⟨h1, h2⟩
    simp [ShellRunner.run, hlogp, h1, h2]
  · intro h
    rcases h with h | h
    · simp [ShellRunner.run, hlogp, h]
    · simp [ShellRunner.run, hlogp, h]

/-- Witness for C4 at a command exiting 1: with `ignore_errors=False` it
raises the carried error, with `ignore_errors=True` it returns the result. -/
theorem c4_exit_code_raising_witness :
    ShellRunner.run (fun _ => Except.ok ()) [] none false
        (fun _ => { args := ["x"], returncode := 1, stdout := "o", stderr := "e" })
      = Except.error (RunErr.cmdFailed 1 ["x"] "o" "e")
    ∧ ShellRunner.run (fun _ => Except.ok ()) [] none true
        (fun _ => { args := ["x"], returncode := 1, stdout := "o", stderr := "e" })
      = Except.ok { args := ["x"], returncode := 1, stdout := "o", stderr := "e" } :=
  ⟨(c4_exit_code_raising (fun _ => Except.ok ()) [] none false
      (fun _ => { args := ["x"], returncode := 1, stdout := "o", stderr := "e" })
      (fun _ => rfl)).1 ⟨by decide, rfl⟩,
   (c4_exit_code_raising (fun _ => Except.ok ()) [] none true
      (fun _ => { args := ["x"], returncode := 1, stdout := "o", stderr := "e" })
      (fun _ => rfl)).2 (Or.inr rfl)⟩

/-- C5: for every architecture the computed packages coincide with the fixed
table of the spec (stated order-independently as a membership equivalence,
and in fact as list equality), and one install command is issued that lists
every computed package. -/
theorem c5_apt_packages_table :
    ∀ a : Arch,
      (∀ p : String, p ∈ install_compilers_apt_packages a ↔ p ∈ specPackageTable a)
      ∧ install_compilers_apt_command a
          = "sudo apt-get install -y " ++ joinSpace (install_compilers_apt_packages a)
      ∧ ∀ p ∈ install_compilers_apt_packages a,
          listHasSub p.data (install_compilers_apt_command a).data = true := by
  intro a
  have h : install_compilers_apt_packages a = specPackageTable a := by
    cases a <;> rfl
  refine ⟨fun p => by rw [h], by cases a <;> rfl, ?_⟩
  cases a <;> decide

/-- C6: when the archive yields installer candidates and every member passes
the traversal check, each discovered installer is invoked exactly once, in
archive order, with the `-d <install dir>` argument selecting the target
directory and the `-y` argument auto-accepting prompts; if every invocation
exits 0 the whole list runs and no error is raised, while the first non-zero
exit raises the command failure and aborts before any later installer
runs. -/
theorem c6_installer_invocation (cwd tarDir installDir : String)
    (members : List String) (exitCode : String → Int)
    (hne : toolchainInstallers tarDir members ≠ [])
    (hsafe : ∀ m ∈ members, is_within_directory cwd tarDir (osPathJoin tarDir m) = true) :
    ((∀ c ∈ (toolchainInstallers tarDir members).map (mkInstallCmd installDir),
        exitCode c = 0) →
      (extract_and_install_toolchain cwd tarDir installDir members exitCode).commands
          = (toolchainInstallers tarDir members).map (mkInstallCmd installDir)
      ∧ (extract_and_install_toolchain cwd tarDir installDir members exitCode).err = none)
    ∧ (∀ pre c post,
        (toolchainInstallers tarDir members).map (mkInstallCmd installDir)
            = pre ++ c :: post →
        (∀ x ∈ pre, exitCode x = 0) → exitCode c ≠ 0 →
        (extract_and_install_toolchain cwd tarDir installDir members exitCode).commands
            = pre ++ [c]
        ∧ (extract_and_install_toolchain cwd tarDir installDir members exitCode).err
            = some (InstallErr.commandFailed c (exitCode c))) := by
  have hany : members.any
      (fun m => !is_within_directory cwd tarDir (osPathJoin tarDir m)) = false := by
    rw [List.any_eq_false]
    intro m hm
    simp [hsafe m hm]
  have hrun : extract_and_install_toolchain cwd tarDir installDir members exitCode
      = { extracted := members,
          commands := (runInstallers exitCode
            ((toolchainInstallers tarDir members).map (mkInstallCmd installDir))).1,
          err := (runInstallers exitCode
            ((toolchainInstallers tarDir members).map (mkInstallCmd installDir))).2 } := by
    simp [extract_and_install_toolchain, hne, hany]
  constructor
  · intro hall
    have hr := runInstallers_all_ok exitCode
      ((toolchainInstallers tarDir members).map (mkInstallCmd installDir)) hall
    rw [hrun]
    simp [hr]
  · intro pre c post hsplit hpre hc
    have hr := runInstallers_abort exitCode pre c post hpre hc
    rw [hrun]
    simp [hsplit, hr]

/-- Witness for C6: a two-installer archive with commands that all exit 0
runs both installers in archive order with the `-d` and `-y` arguments. -/
theorem c6_installer_invocation_witness :
    (extract_and_install_toolchain "/" "/t" "/opt" ["a.sh", "b.sh"] (fun _ => 0)).commands
      = ["/t/a.sh -d /opt -y", "/t/b.sh -d /opt -y"]
    ∧ (extract_and_install_toolchain "/" "/t" "/opt" ["a.sh", "b.sh"] (fun _ => 0)).err
      = none := by
  have h := (c6_installer_invocation "/" "/t" "/opt" ["a.sh", "b.sh"] (fun _ => 0)
      (by decide) (by decide)).1 (by decide)
  exact ⟨h.1.trans (by decide), h.2⟩

/-- C7: an archive none of whose member names contains `.sh` makes
`extract_and_install_toolchain` raise the no-installer error, and the archive
holding exactly `install.sh` and `readme.txt` yields exactly the one
candidate `install.sh`. -/
theorem c7_installer_not_found (cwd tarDir installDir : String)
    (members : List String) (exitCode : String → Int)
    (h : ∀ m ∈ members, memberIsInstaller m = false) :
    (extract_and_install_toolchain cwd tarDir installDir members exitCode).err
        = some InstallErr.installerNotFound
    ∧ ∀ d : String, toolchainInstallers d ["install.sh", "readme.txt"]
        = [pathlibJoin d "install.sh"] := by
  have hnil : toolchainInstallers tarDir members = [] := by
    unfold toolchainInstallers
    rw [filter_installers_nil members h]
    rfl
  constructor
  · simp [extract_and_install_toolchain, hnil]
  · intro d
    unfold toolchainInstallers
    have h1 : memberIsInstaller "install.sh" = true := by decide
    have h2 : memberIsInstaller "readme.txt" = false := by decide
    simp [List.filter, h1, h2]

/-- Witness for C7 at a concrete installer-free archive. -/
theorem c7_installer_not_found_witness :
    (extract_and_install_toolchain "/" "/t" "/opt" ["readme.txt"] (fun _ => 0)).err
        = some InstallErr.installerNotFound
    ∧ toolchainInstallers "/t" ["install.sh", "readme.txt"]
        = [pathlibJoin "/t" "install.sh"] :=
  ⟨(c7_installer_not_found "/" "/t" "/opt" ["readme.txt"] (fun _ => 0) (by decide)).1,
   (c7_installer_not_found "/" "/t" "/opt" ["readme.txt"] (fun _ => 0) (by decide)).2 "/t"⟩

/-- C8: the `working_directory` scope always leaves the process in the
directory that was current on entry — the last `os.chdir` performed is the
`finally:` restore — and it forwards the wrapped operation's outcome
unchanged, so this holds both when the body returns and when it raises. -/
theorem c8_working_directory_restored (cwd target : String)
    (body : String → List String × Except Unit Unit) :
    finalDir cwd (working_directory cwd target body).1 = cwd
    ∧ (working_directory cwd target body).2 = (body target).2 := by
  cases hb : body target with
  | mk chdirs res =>
    constructor
    · simp [working_directory, finalDir, hb, List.foldl_append]
    · simp [working_directory, hb]

/-- C9: when no member name matches the installer pattern, the failure is
raised from the member-list scan that runs before `safe_extract` and
`extractall`, so nothing is extracted and no installer command runs: the
filesystem is untouched. -/
theorem c9_no_extraction_before_installer_check (cwd tarDir installDir : String)
    (members : List String) (exitCode : String → Int)
    (h : ∀ m ∈ members, memberIsInstaller m = false) :
    (extract_and_install_toolchain cwd tarDir installDir members exitCode).extracted = []
    ∧ (extract_and_install_toolchain cwd tarDir installDir members exitCode).commands = []
    ∧ (extract_and_install_toolchain cwd tarDir installDir members exitCode).err
        = some InstallErr.installerNotFound := by
  have hnil : toolchainInstallers tarDir members = [] := by
    unfold toolchainInstallers
    rw [filter_installers_nil members h]
    rfl
  refine ⟨?_, ?_, ?_⟩ <;> simp [extract_and_install_toolchain, hnil]

/-- Witness for C9 at a concrete archive holding one data file and one
archive-looking file, neither matching the pattern. -/
theorem c9_no_extraction_witness :
    (extract_and_install_toolchain "/" "/t" "/opt" ["data.bin", "notes.txt"]
        (fun _ => 0)).extracted = []
    ∧ (extract_and_install_toolchain "/" "/t" "/opt" ["data.bin", "notes.txt"]
        (fun _ => 0)).commands = []
    ∧ (extract_and_install_toolchain "/" "/t" "/opt" ["data.bin", "notes.txt"]
        (fun _ => 0)).err = some InstallErr.installerNotFound :=
  c9_no_extraction_before_installer_check "/" "/t" "/opt" ["data.bin", "notes.txt"]
    (fun _ => 0) (by decide)

/-- C10: a member is classified as an installer exactly when `.sh` occurs
somewhere in its name — characterised here as the existence of a split of the
name around the three characters — so the classification is not a suffix
test: `notes.shop.txt` does not end in `.sh`, yet it is classified as an
installer and invoked as one by `extract_and_install_toolchain`. -/
theorem c10_substring_classification :
    (∀ name : String, memberIsInstaller name = true ↔ ∃ l r, name.data = l ++ shChars ++ r)
    ∧ memberIsInstaller "notes.shop.txt" = true
    ∧ listEndsWith shChars "notes.shop.txt".data = false
    ∧ (extract_and_install_toolchain "/" "/t" "/opt" ["notes.shop.txt"] (fun _ => 0)).commands
        = [mkInstallCmd "/opt" (pathlibJoin "/t" "notes.shop.txt")] := by
  refine ⟨fun name => listHasSub_iff shChars name.data, by decide, by decide, by decide⟩
